import Mathlib

/-!
Shallow embedding of the extraction dispatcher of src/app.py.

The function convert_file_to_text (src/app.py, lines 24-72) receives a file
path, derives the lowercased extension with os.path.splitext, dispatches to a
format-specific extraction strategy, and returns either the extracted text or
an error string.  The third-party parsing libraries (python-docx, openpyxl,
python-pptx, PyPDF2, markdownify) and the file system are modelled by an
environment record: each library call either yields a parsed document
structure or raises an exception carrying a message, and markdownify is an
arbitrary pure collaborator function.
-/

/-- Model of CPython str.rfind restricted to a single character: the highest
index at which the character occurs, or -1 when it does not occur. -/
def pyRfindAux (c : Char) : List Char → Nat → Int → Int
  | [], _, acc => acc
  | x :: xs, i, acc => pyRfindAux c xs (i + 1) (if x = c then (i : Int) else acc)

/-- Last index of a character in a character list, -1 when absent. -/
def pyRfind (cs : List Char) (c : Char) : Int := pyRfindAux c cs 0 (-1)

/-- Model of os.path.splitext for POSIX paths: split at the last dot of the
final path component, except that a run of leading dots of the component does
not start an extension. -/
def splitext (p : String) : String × String :=
  let cs := p.toList
  let sepIndex : Int := pyRfind cs '/'
  let dotIndex : Int := pyRfind cs '.'
  if sepIndex < dotIndex then
    if ((cs.drop (sepIndex + 1).toNat).take (dotIndex - sepIndex - 1).toNat).any
        (fun c => !(c == '.')) then
      ((cs.take dotIndex.toNat).asString, (cs.drop dotIndex.toNat).asString)
    else (p, "")
  else (p, "")

/-- Model of CPython str.lower on one character, restricted to ASCII; every
extension appearing in the claims is ASCII. -/
def lowerChar (c : Char) : Char :=
  if 'A' ≤ c ∧ c ≤ 'Z' then Char.ofNat (c.toNat + 32) else c

/-- Model of CPython str.lower restricted to ASCII letters. -/
def lowerStr (s : String) : String := (s.toList.map lowerChar).asString

/-- The lowercased extension of a path: src/app.py lines 36-37. -/
def extOf (filepath : String) : String := lowerStr (splitext filepath).2

/-- Model of a python-docx Document: the list of paragraph texts. -/
structure DocxDocument where
  paragraphs : List String

/-- Model of an openpyxl worksheet: its name and its rows; a cell is None or
a value whose str() rendering is the stored string. -/
structure Worksheet where
  name : String
  rows : List (List (Option String))

/-- Model of an openpyxl workbook: its sheets in workbook order. -/
structure Workbook where
  sheets : List Worksheet

/-- Model of a python-pptx shape: textAttr is none when the shape has no text
attribute (hasattr(shape, "text") is false), otherwise the shape text. -/
structure Shape where
  textAttr : Option String

/-- Model of a python-pptx slide: its shapes in order. -/
structure Slide where
  shapes : List Shape

/-- Model of a python-pptx Presentation: its slides in order. -/
structure PptxPresentation where
  slides : List Slide

/-- Model of a PyPDF2 PdfReader: for each page in order, the result of
page.extract_text(), which is none when the extractor returns None. -/
structure PdfFile where
  pages : List (Option String)

/-- The environment of one conversion request: what each library call on the
uploaded file would produce.  Except.error msg models the call raising an
exception whose message is msg. -/
structure Env where
  docx : Except String DocxDocument
  xlsx : Except String Workbook
  pptx : Except String PptxPresentation
  readUtf8 : Except String String
  markdownify : String → String
  pdf : Except String PdfFile

/-- A single quote character as a string, used in the error messages. -/
def squote : String := String.singleton (Char.ofNat 39)

/-- The error string of the except-branch, src/app.py line 72. -/
def errProcessing (cause : String) : String :=
  "Error processing file: " ++ cause ++ ". Please ensure the file is not corrupted."

/-- The error string of the unsupported-extension branch, src/app.py line 67. -/
def errUnsupported (extension : String) : String :=
  "Error: Unsupported file type " ++ squote ++ extension ++ squote ++
    ". Please upload a supported file."

/-- The CPython TypeError message raised by line 65 of src/app.py when
page.extract_text() returns None and the code adds it to a str. -/
def pdfNoneCause : String :=
  "unsupported operand type(s) for +: " ++ squote ++ "NoneType" ++ squote ++
    " and " ++ squote ++ "str" ++ squote

/-- Model of str(cell.value) if cell.value is not None else "" on line 50. -/
def cellStr (v : Option String) : String :=
  match v with
  | some s => s
  | none => ""

/-- Model of CPython sep.join(list). -/
def pyJoin (sep : String) : List String → String
  | [] => ""
  | [x] => x
  | x :: y :: rest => x ++ sep ++ pyJoin sep (y :: rest)

/-- The PDF page loop of src/app.py lines 64-65: accumulate each page text
plus a newline; adding None raises a TypeError, modelled as Except.error. -/
def pdfLoop : List (Option String) → String → Except String String
  | [], acc => Except.ok acc
  | none :: _, _ => Except.error pdfNoneCause
  | some t :: rest, acc => pdfLoop rest (acc ++ t ++ "\n")

/-- Shallow embedding of convert_file_to_text, src/app.py lines 24-72.  The
source computes the lowercased extension once and branches on it; here the
expression extOf filepath stands for that local variable. -/
def convert_file_to_text (env : Env) (filepath : String) : String :=
  if extOf filepath = ".docx" then
    match env.docx with
    | Except.error e => errProcessing e
    | Except.ok document =>
        document.paragraphs.foldl (fun acc q => acc ++ q ++ "\n") ""
  else if extOf filepath = ".xlsx" then
    match env.xlsx with
    | Except.error e => errProcessing e
    | Except.ok workbook =>
        workbook.sheets.foldl
          (fun acc sheet =>
            sheet.rows.foldl
              (fun acc2 row => acc2 ++ pyJoin "\t" (row.map cellStr) ++ "\n")
              (acc ++ "--- Sheet: " ++ sheet.name ++ " ---\n"))
          ""
  else if extOf filepath = ".pptx" then
    match env.pptx with
    | Except.error e => errProcessing e
    | Except.ok presentation =>
        presentation.slides.foldl
          (fun acc slide =>
            slide.shapes.foldl
              (fun acc2 shape =>
                match shape.textAttr with
                | some t => acc2 ++ t ++ "\n"
                | none => acc2)
              acc)
          ""
  else if extOf filepath ∈ [".html", ".htm"] then
    match env.readUtf8 with
    | Except.error e => errProcessing e
    | Except.ok html_content => env.markdownify html_content
  else if extOf filepath = ".pdf" then
    match env.pdf with
    | Except.error e => errProcessing e
    | Except.ok reader =>
        match pdfLoop reader.pages "" with
        | Except.error e => errProcessing e
        | Except.ok t => t
  else errUnsupported (extOf filepath)

/-- Boolean prefix test on strings, used to state the Error-prefix contract
that the caller applies on src/app.py line 105. -/
def strStartsWith (s pre : String) : Bool := pre.toList.isPrefixOf s.toList

/-- The supported extensions of variant A, src/app.py lines 40-65. -/
def supportedExts : List String := [".docx", ".xlsx", ".pptx", ".html", ".htm", ".pdf"]

/-- True when a modelled library call raised. -/
def isErr {α : Type} (r : Except String α) : Bool :=
  match r with
  | Except.error _ => true
  | Except.ok _ => false

/-- The message of a raised library call, none when it succeeded. -/
def errOf {α : Type} (r : Except String α) : Option String :=
  match r with
  | Except.error e => some e
  | Except.ok _ => none

/-- Extraction failure in the sense of the spec: the extension is
unsupported, or the extraction step selected for the extension raised. -/
def extractionFailed (env : Env) (filepath : String) : Bool :=
  if extOf filepath = ".docx" then isErr env.docx
  else if extOf filepath = ".xlsx" then isErr env.xlsx
  else if extOf filepath = ".pptx" then isErr env.pptx
  else if extOf filepath ∈ [".html", ".htm"] then isErr env.readUtf8
  else if extOf filepath = ".pdf" then
    match env.pdf with
    | Except.error _ => true
    | Except.ok reader => reader.pages.any (fun pg => pg.isNone)
  else true

/-- The cause raised by the extraction step selected for a supported
extension, none when that step succeeds or the extension is unsupported. -/
def stepRaises (env : Env) (extension : String) : Option String :=
  if extension = ".docx" then errOf env.docx
  else if extension = ".xlsx" then errOf env.xlsx
  else if extension = ".pptx" then errOf env.pptx
  else if extension ∈ [".html", ".htm"] then errOf env.readUtf8
  else if extension = ".pdf" then
    match env.pdf with
    | Except.error e => some e
    | Except.ok reader =>
        match pdfLoop reader.pages "" with
        | Except.error e => some e
        | Except.ok _ => none
  else none

/-- Each element followed by a newline, concatenated in order. -/
def linesText : List String → String
  | [] => ""
  | t :: rest => t ++ "\n" ++ linesText rest

/-- Concatenation of a list of strings. -/
def joinStr : List String → String
  | [] => ""
  | s :: rest => s ++ joinStr rest

/-- Split a character list at newline characters, keeping empty segments,
like CPython str.split on a newline. -/
def splitNL : List Char → List (List Char)
  | [] => [[]]
  | c :: cs =>
      if c = '\n' then [] :: splitNL cs
      else
        match splitNL cs with
        | [] => [[c]]
        | h :: t => (c :: h) :: t

/-- The newline-terminated lines of a string: the segments before each
newline; the trailing segment after the last newline is not a line. -/
def ntLinesStr (s : String) : List String :=
  ((splitNL s.toList).dropLast).map List.asString

/-- One spreadsheet row as rendered by src/app.py lines 50-51. -/
def rowText (row : List (Option String)) : String :=
  pyJoin "\t" (row.map cellStr) ++ "\n"

/-- One worksheet as rendered by src/app.py lines 46-51. -/
def sheetText (sheet : Worksheet) : String :=
  "--- Sheet: " ++ sheet.name ++ " ---\n" ++ joinStr (sheet.rows.map rowText)

/-- A whole workbook as rendered by the xlsx branch. -/
def xlsxText (sheets : List Worksheet) : String := joinStr (sheets.map sheetText)

/-- An environment in which every library call succeeds on an empty
document. -/
def envDefault : Env :=
  ⟨Except.ok ⟨[]⟩, Except.ok ⟨[]⟩, Except.ok ⟨[]⟩, Except.ok "", id, Except.ok ⟨[]⟩⟩

/-- An environment in which every library call raises. -/
def envAllError : Env :=
  ⟨Except.error "e1", Except.error "e2", Except.error "e3", Except.error "e4",
    id, Except.error "e5"⟩

/-- A docx file whose single paragraph is the word Error: extraction
succeeds, yet the output starts with the word Error. -/
def envErrorParagraph : Env :=
  ⟨Except.ok ⟨["Error"]⟩, Except.ok ⟨[]⟩, Except.ok ⟨[]⟩, Except.ok "", id, Except.ok ⟨[]⟩⟩

/-- A corrupted docx file: the Document call raises with message bad zip. -/
def envDocxError : Env :=
  ⟨Except.error "bad zip", Except.ok ⟨[]⟩, Except.ok ⟨[]⟩, Except.ok "", id, Except.ok ⟨[]⟩⟩

/-- A docx file with the two paragraphs Hello and World. -/
def envHello : Env :=
  ⟨Except.ok ⟨["Hello", "World"]⟩, Except.ok ⟨[]⟩, Except.ok ⟨[]⟩, Except.ok "", id,
    Except.ok ⟨[]⟩⟩

/-- A workbook with one sheet Sheet1 holding the rows of the spec example. -/
def envSheet1 : Env :=
  ⟨Except.ok ⟨[]⟩,
    Except.ok ⟨[⟨"Sheet1", [[some "A", some "B"], [some "1", none]]⟩]⟩,
    Except.ok ⟨[]⟩, Except.ok "", id, Except.ok ⟨[]⟩⟩

/-- A two-page PDF whose pages yield the text Page1 and the empty string. -/
def envPdfPages : Env :=
  ⟨Except.ok ⟨[]⟩, Except.ok ⟨[]⟩, Except.ok ⟨[]⟩, Except.ok "", id,
    Except.ok ⟨[some "Page1", some ""]⟩⟩

/-- A presentation with two slides; the first slide has one text shape and
one shape without a text attribute, the second slide one text shape. -/
def envSlides : Env :=
  ⟨Except.ok ⟨[]⟩, Except.ok ⟨[]⟩,
    Except.ok ⟨[⟨[⟨some "A"⟩, ⟨none⟩]⟩, ⟨[⟨some "B"⟩]⟩]⟩,
    Except.ok "", id, Except.ok ⟨[]⟩⟩

/-- An HTML file whose UTF-8 content is a heading, with a markdownify
collaborator that prepends a hash mark. -/
def envHtml : Env :=
  ⟨Except.ok ⟨[]⟩, Except.ok ⟨[]⟩, Except.ok ⟨[]⟩,
    Except.ok "<h1>Title</h1>", fun t => "# " ++ t, Except.ok ⟨[]⟩⟩

/-- A list is a Boolean prefix of itself extended by anything. -/
theorem isPrefixOf_append_self (xs ys : List Char) : xs.isPrefixOf (xs ++ ys) = true := by
  induction xs with
  | nil => simp [List.isPrefixOf]
  | cons x xs ih => simp [List.isPrefixOf, ih]

/-- Extending the larger list on the right preserves the prefix test. -/
theorem isPrefixOf_append_left (xs : List Char) :
    ∀ ys zs : List Char, xs.isPrefixOf ys = true → xs.isPrefixOf (ys ++ zs) = true := by
  induction xs with
  | nil => intro ys zs _; simp [List.isPrefixOf]
  | cons x xs ih =>
      intro ys zs h
      cases ys with
      | nil => simp [List.isPrefixOf] at h
      | cons y ys =>
          simp only [List.isPrefixOf, List.cons_append, Bool.and_eq_true] at h ⊢
          exact ⟨h.1, ih ys zs h.2⟩

/-- Every processing-error string starts with the word Error. -/
theorem errProcessing_startsWith (cause : String) :
    strStartsWith (errProcessing cause) "Error" = true := by
  show List.isPrefixOf _ _ = true
  simp only [errProcessing, String.data_append]
  apply isPrefixOf_append_left
  apply isPrefixOf_append_left
  decide

/-- Every unsupported-type error string starts with the word Error. -/
theorem errUnsupported_startsWith (extension : String) :
    strStartsWith (errUnsupported extension) "Error" = true := by
  show List.isPrefixOf _ _ = true
  simp only [errUnsupported, String.data_append]
  apply isPrefixOf_append_left
  apply isPrefixOf_append_left
  apply isPrefixOf_append_left
  apply isPrefixOf_append_left
  decide

/-- linesText distributes over list append. -/
theorem linesText_append (xs ys : List String) :
    linesText (xs ++ ys) = linesText xs ++ linesText ys := by
  induction xs with
  | nil => simp [linesText]
  | cons x xs ih => simp [linesText, ih, String.append_assoc]

/-- The paragraph accumulation loop appends linesText to the accumulator. -/
theorem foldl_linesText (ps : List String) :
    ∀ a : String, ps.foldl (fun acc q => acc ++ q ++ "\n") a = a ++ linesText ps := by
  induction ps with
  | nil => intro a; simp [linesText]
  | cons q ps ih =>
      intro a
      simp only [List.foldl_cons]
      rw [ih]
      simp [linesText, String.append_assoc]

/-- The PDF loop on pages that all yield text returns the accumulated lines. -/
theorem pdfLoop_map_some (ts : List String) :
    ∀ a : String, pdfLoop (ts.map some) a = Except.ok (a ++ linesText ts) := by
  induction ts with
  | nil => intro a; simp [pdfLoop, linesText]
  | cons t ts ih =>
      intro a
      simp only [List.map_cons, pdfLoop, linesText, ih, String.append_assoc]

/-- The PDF loop raises the TypeError cause when some page yields None. -/
theorem pdfLoop_none (pages : List (Option String)) (hmem : none ∈ pages) :
    ∀ a : String, pdfLoop pages a = Except.error pdfNoneCause := by
  induction pages with
  | nil => cases hmem
  | cons pg pages ih =>
      intro a
      cases pg with
      | none => rfl
      | some t =>
          have : none ∈ pages := by
            cases hmem with
            | tail _ h => exact h
          simp only [pdfLoop]
          exact ih this _

/-- The shape loop of one slide appends the lines of the shapes that expose
a text attribute, in shape order. -/
theorem foldl_shapes (shapes : List Shape) :
    ∀ a : String,
      shapes.foldl
        (fun acc2 shape =>
          match shape.textAttr with
          | some t => acc2 ++ t ++ "\n"
          | none => acc2) a
      = a ++ linesText (shapes.filterMap Shape.textAttr) := by
  induction shapes with
  | nil => intro a; simp [linesText]
  | cons sh shapes ih =>
      intro a
      cases h : sh.textAttr with
      | none =>
          simp only [List.foldl_cons, h, List.filterMap_cons]
          exact ih a
      | some t =>
          simp only [List.foldl_cons, h, List.filterMap_cons]
          rw [ih]
          simp [linesText, String.append_assoc]

/-- The slide loop appends the lines of all text-bearing shapes, slide by
slide in order. -/
theorem foldl_slides (slides : List Slide) :
    ∀ a : String,
      slides.foldl
        (fun acc slide =>
          slide.shapes.foldl
            (fun acc2 shape =>
              match shape.textAttr with
              | some t => acc2 ++ t ++ "\n"
              | none => acc2) acc) a
      = a ++ linesText ((slides.map (fun slide => slide.shapes.filterMap Shape.textAttr)).flatten) := by
  induction slides with
  | nil => intro a; simp [linesText]
  | cons sl slides ih =>
      intro a
      simp only [List.foldl_cons, List.map_cons, List.flatten_cons]
      rw [foldl_shapes, ih, linesText_append, String.append_assoc]

/-- The row loop of one sheet appends the rendered rows in order. -/
theorem foldl_rows (rows : List (List (Option String))) :
    ∀ a : String,
      rows.foldl (fun acc2 row => acc2 ++ pyJoin "\t" (row.map cellStr) ++ "\n") a
      = a ++ joinStr (rows.map rowText) := by
  induction rows with
  | nil => intro a; simp [joinStr]
  | cons row rows ih =>
      intro a
      simp only [List.foldl_cons, List.map_cons, joinStr]
      rw [ih]
      simp [rowText, String.append_assoc]

/-- The sheet loop appends the rendered sheets in order. -/
theorem foldl_sheets (sheets : List Worksheet) :
    ∀ a : String,
      sheets.foldl
        (fun acc sheet =>
          sheet.rows.foldl
            (fun acc2 row => acc2 ++ pyJoin "\t" (row.map cellStr) ++ "\n")
            (acc ++ "--- Sheet: " ++ sheet.name ++ " ---\n")) a
      = a ++ xlsxText sheets := by
  induction sheets with
  | nil => intro a; simp [xlsxText, joinStr]
  | cons sheet sheets ih =>
      intro a
      simp only [List.foldl_cons]
      rw [foldl_rows, ih]
      simp [xlsxText, joinStr, sheetText, String.append_assoc]

/-- Dispatch of the docx branch: src/app.py lines 40-43. -/
theorem convert_docx_eq (env : Env) (p : String) (h : extOf p = ".docx") :
    convert_file_to_text env p =
      match env.docx with
      | Except.error e => errProcessing e
      | Except.ok document => linesText document.paragraphs := by
  unfold convert_file_to_text
  rw [h, if_pos rfl]
  cases env.docx with
  | error e => rfl
  | ok document =>
      show document.paragraphs.foldl (fun acc q => acc ++ q ++ "\n") "" = _
      rw [foldl_linesText]
      rfl

/-- Dispatch of the xlsx branch: src/app.py lines 44-51. -/
theorem convert_xlsx_eq (env : Env) (p : String) (h : extOf p = ".xlsx") :
    convert_file_to_text env p =
      match env.xlsx with
      | Except.error e => errProcessing e
      | Except.ok workbook => xlsxText workbook.sheets := by
  unfold convert_file_to_text
  rw [h, if_neg (by decide), if_pos rfl]
  cases env.xlsx with
  | error e => rfl
  | ok workbook =>
      show workbook.sheets.foldl _ "" = _
      rw [foldl_sheets]
      rfl

/-- Dispatch of the pptx branch: src/app.py lines 52-57. -/
theorem convert_pptx_eq (env : Env) (p : String) (h : extOf p = ".pptx") :
    convert_file_to_text env p =
      match env.pptx with
      | Except.error e => errProcessing e
      | Except.ok presentation =>
          linesText
            ((presentation.slides.map
              (fun slide => slide.shapes.filterMap Shape.textAttr)).flatten) := by
  unfold convert_file_to_text
  rw [h, if_neg (by decide), if_neg (by decide), if_pos rfl]
  cases env.pptx with
  | error e => rfl
  | ok presentation =>
      show presentation.slides.foldl _ "" = _
      rw [foldl_slides]
      rfl

/-- Dispatch of the html branch: src/app.py lines 58-61. -/
theorem convert_html_eq (env : Env) (p : String) (h : extOf p ∈ [".html", ".htm"]) :
    convert_file_to_text env p =
      match env.readUtf8 with
      | Except.error e => errProcessing e
      | Except.ok html_content => env.markdownify html_content := by
  have h1 : extOf p ≠ ".docx" := by
    intro hh; rw [hh] at h; simp at h
  have h2 : extOf p ≠ ".xlsx" := by
    intro hh; rw [hh] at h; simp at h
  have h3 : extOf p ≠ ".pptx" := by
    intro hh; rw [hh] at h; simp at h
  unfold convert_file_to_text
  rw [if_neg h1, if_neg h2, if_neg h3, if_pos h]

/-- Dispatch of the pdf branch: src/app.py lines 62-65. -/
theorem convert_pdf_eq (env : Env) (p : String) (h : extOf p = ".pdf") :
    convert_file_to_text env p =
      match env.pdf with
      | Except.error e => errProcessing e
      | Except.ok reader =>
          match pdfLoop reader.pages "" with
          | Except.error e => errProcessing e
          | Except.ok t => t := by
  unfold convert_file_to_text
  rw [h, if_neg (by decide), if_neg (by decide), if_neg (by decide),
    if_neg (by decide), if_pos rfl]

/-- Dispatch of the else branch: src/app.py lines 66-67. -/
theorem convert_unsupported_eq (env : Env) (p : String)
    (h : supportedExts.contains (extOf p) = false) :
    convert_file_to_text env p = errUnsupported (extOf p) := by
  simp only [supportedExts, List.contains_cons, Bool.or_eq_false_iff,
    List.contains_nil, beq_eq_false_iff_ne, ne_eq] at h
  obtain ⟨h1, h2, h3, h4, h5, h6, -⟩ := h
  unfold convert_file_to_text
  rw [if_neg h1, if_neg h2, if_neg h3, if_neg (by simp [h4, h5]), if_neg h6]

/-- Splitting a list that starts with a newline-free prefix followed by a
newline peels off that prefix as one segment. -/
theorem splitNL_append_cons (xs : List Char) (hx : '\n' ∉ xs) :
    ∀ ys : List Char, splitNL (xs ++ '\n' :: ys) = xs :: splitNL ys := by
  induction xs with
  | nil => intro ys; simp [splitNL]
  | cons c xs ih =>
      intro ys
      have hc : ¬ c = '\n' := fun hh => hx (by rw [hh]; exact List.mem_cons_self _ _)
      have hx2 : '\n' ∉ xs := fun hh => hx (List.mem_cons_of_mem _ hh)
      simp only [List.cons_append, splitNL, if_neg hc, List.append_eq]
      rw [ih hx2]

/-- Splitting the output built from newline-free paragraphs recovers the
paragraphs plus one empty trailing segment. -/
theorem splitNL_linesText (ps : List String) (h : ∀ q ∈ ps, '\n' ∉ q.toList) :
    splitNL (linesText ps).toList = (ps.map String.toList) ++ [[]] := by
  induction ps with
  | nil => simp [linesText, splitNL]
  | cons q ps ih =>
      have hq : '\n' ∉ q.toList := h q (List.mem_cons_self _ _)
      have hps : ∀ r ∈ ps, '\n' ∉ r.toList := fun r hr => h r (List.mem_cons_of_mem _ hr)
      have hdata : (q ++ "\n" ++ linesText ps).toList
          = q.toList ++ '\n' :: (linesText ps).toList := by
        show (q ++ "\n" ++ linesText ps).data = q.data ++ '\n' :: (linesText ps).data
        rw [String.data_append, String.data_append]
        rw [show ("\n" : String).data = ['\n'] from rfl]
        simp
      show splitNL (q ++ "\n" ++ linesText ps).toList = _
      rw [hdata, splitNL_append_cons q.toList hq, ih hps]
      simp

/-- The newline-terminated lines of the output built from newline-free
paragraphs are exactly the paragraphs. -/
theorem ntLinesStr_linesText (ps : List String) (h : ∀ q ∈ ps, '\n' ∉ q.toList) :
    ntLinesStr (linesText ps) = ps := by
  unfold ntLinesStr
  rw [splitNL_linesText ps h, List.dropLast_concat, List.map_map]
  have hcomp : (List.asString ∘ String.toList) = id := funext fun s => rfl
  rw [hcomp, List.map_id]

/-- C3: for every file path whose lowercased extension is outside the
supported set, convert_file_to_text returns the unsupported-type error
string quoting the offending extension, and the result is the same for any
environment, so no format-specific parsing strategy is ever invoked. -/
theorem unsupported_extension_failure (env env2 : Env) (p : String)
    (h : supportedExts.contains (extOf p) = false) :
    convert_file_to_text env p = errUnsupported (extOf p) ∧
      convert_file_to_text env p = convert_file_to_text env2 p := by
  refine ⟨convert_unsupported_eq env p h, ?_⟩
  rw [convert_unsupported_eq env p h, convert_unsupported_eq env2 p h]

/-- C3 witness at the path file.xyz with two maximally different
environments. -/
theorem unsupported_extension_failure_witness :
    convert_file_to_text envDefault "file.xyz" = errUnsupported ".xyz" ∧
      convert_file_to_text envDefault "file.xyz" = convert_file_to_text envAllError "file.xyz" :=
  unsupported_extension_failure envDefault envAllError "file.xyz" (by decide)

/-- C8: the selected strategy depends only on the lowercased extension of
the path, so two paths with equal lowercased extensions give identical
results on the same file content. -/
theorem dispatch_case_insensitive (env : Env) (p q : String) (h : extOf p = extOf q) :
    convert_file_to_text env p = convert_file_to_text env q := by
  unfold convert_file_to_text
  rw [h]

/-- C8 witness: an upper-case PDF extension behaves like the lower-case
one on the same content. -/
theorem dispatch_case_insensitive_witness :
    convert_file_to_text envPdfPages "report.PDF" = convert_file_to_text envPdfPages "report.pdf" :=
  dispatch_case_insensitive envPdfPages "report.PDF" "report.pdf" (by decide)

/-- C9: for a markup extension the result is exactly the markdownify
collaborator applied to the decoded UTF-8 file content. -/
theorem html_markdownify_exact (env : Env) (p : String) (s : String)
    (hext : extOf p ∈ [".html", ".htm"]) (hread : env.readUtf8 = Except.ok s) :
    convert_file_to_text env p = env.markdownify s := by
  rw [convert_html_eq env p hext, hread]

/-- C9 witness on a concrete heading document. -/
theorem html_markdownify_exact_witness :
    convert_file_to_text envHtml "page.HTML" = envHtml.markdownify "<h1>Title</h1>" :=
  html_markdownify_exact envHtml "page.HTML" "<h1>Title</h1>" (by decide) rfl

/-- C10: a path without an extension is dispatched to the unsupported
branch with the empty extension quoted, for every environment, so no
extraction is attempted. -/
theorem no_extension_unsupported (env : Env) (p : String)
    (h : (splitext p).2 = "") :
    convert_file_to_text env p =
      "Error: Unsupported file type " ++ squote ++ squote ++
        ". Please upload a supported file." := by
  have hext : extOf p = "" := by unfold extOf; rw [h]; rfl
  have hc : supportedExts.contains (extOf p) = false := by rw [hext]; decide
  rw [convert_unsupported_eq env p hc, hext]
  decide

/-- C10 witness at the bare path file. -/
theorem no_extension_unsupported_witness :
    convert_file_to_text envDefault "file" =
      "Error: Unsupported file type " ++ squote ++ squote ++
        ". Please upload a supported file." :=
  no_extension_unsupported envDefault "file" (by decide)

/-- C4: for a docx input the output is each paragraph text followed by a
newline, concatenated in document order; when no paragraph text contains a
newline the output therefore consists of exactly one newline-terminated
line per paragraph, the i-th line equal to the i-th paragraph; for the
paragraphs Hello and World the output is the string of the spec example. -/
theorem docx_paragraph_lines (env : Env) (p : String) (document : DocxDocument)
    (hext : extOf p = ".docx") (hdoc : env.docx = Except.ok document) :
    convert_file_to_text env p = linesText document.paragraphs ∧
      ((∀ q ∈ document.paragraphs, '\n' ∉ q.toList) →
        ntLinesStr (convert_file_to_text env p) = document.paragraphs) ∧
      (document.paragraphs = ["Hello", "World"] →
        convert_file_to_text env p = "Hello\nWorld\n") := by
  have hmain : convert_file_to_text env p = linesText document.paragraphs := by
    rw [convert_docx_eq env p hext, hdoc]
  refine ⟨hmain, ?_, ?_⟩
  · intro hnl
    rw [hmain]
    exact ntLinesStr_linesText _ hnl
  · intro hps
    rw [hmain, hps]
    rfl

/-- C4 witness on the spec example with paragraphs Hello and World. -/
theorem docx_paragraph_lines_witness :
    convert_file_to_text envHello "a.docx" = linesText ["Hello", "World"] ∧
      ((∀ q ∈ (["Hello", "World"] : List String), '\n' ∉ q.toList) →
        ntLinesStr (convert_file_to_text envHello "a.docx") = ["Hello", "World"]) ∧
      ((["Hello", "World"] : List String) = ["Hello", "World"] →
        convert_file_to_text envHello "a.docx" = "Hello\nWorld\n") :=
  docx_paragraph_lines envHello "a.docx" ⟨["Hello", "World"]⟩ (by decide) rfl

/-- C5: for an xlsx input the output is, sheet by sheet in workbook order,
a header line naming the sheet followed by one tab-joined line per row with
absent cells rendered as the empty string; on the one-sheet example of the
spec the output is the exact expected string. -/
theorem xlsx_sheet_rendering (env : Env) (p : String) (workbook : Workbook)
    (hext : extOf p = ".xlsx") (hwb : env.xlsx = Except.ok workbook) :
    convert_file_to_text env p = xlsxText workbook.sheets ∧
      (workbook.sheets = [⟨"Sheet1", [[some "A", some "B"], [some "1", none]]⟩] →
        convert_file_to_text env p = "--- Sheet: Sheet1 ---\nA\tB\n1\t\n") := by
  have hmain : convert_file_to_text env p = xlsxText workbook.sheets := by
    rw [convert_xlsx_eq env p hext, hwb]
  refine ⟨hmain, ?_⟩
  intro hs
  rw [hmain, hs]
  rfl

/-- C5 witness on the spec example workbook. -/
theorem xlsx_sheet_rendering_witness :
    convert_file_to_text envSheet1 "a.xlsx" =
        xlsxText [⟨"Sheet1", [[some "A", some "B"], [some "1", none]]⟩] ∧
      (([⟨"Sheet1", [[some "A", some "B"], [some "1", none]]⟩] : List Worksheet) =
          [⟨"Sheet1", [[some "A", some "B"], [some "1", none]]⟩] →
        convert_file_to_text envSheet1 "a.xlsx" = "--- Sheet: Sheet1 ---\nA\tB\n1\t\n") :=
  xlsx_sheet_rendering envSheet1 "a.xlsx"
    ⟨[⟨"Sheet1", [[some "A", some "B"], [some "1", none]]⟩]⟩ (by decide) rfl

/-- C6: for a pdf input whose pages all yield text the output appends each
page text plus a newline in page order, a page yielding the empty string
contributing an empty line; when some page yields None the result is the
processing-error string carrying the TypeError cause, not an uncaught
exception. -/
theorem pdf_page_lines (env : Env) (p : String) (reader : PdfFile) (ts : List String)
    (hext : extOf p = ".pdf") (hpdf : env.pdf = Except.ok reader) :
    (reader.pages = ts.map some → convert_file_to_text env p = linesText ts) ∧
      (none ∈ reader.pages → convert_file_to_text env p = errProcessing pdfNoneCause) := by
  have hd : convert_file_to_text env p =
      match pdfLoop reader.pages "" with
      | Except.error e => errProcessing e
      | Except.ok t => t := by
    rw [convert_pdf_eq env p hext, hpdf]
  constructor
  · intro hall
    rw [hd, hall, pdfLoop_map_some]
    rfl
  · intro hmem
    rw [hd, pdfLoop_none reader.pages hmem ""]

/-- C6 witness on a two-page PDF whose second page has no extractable
text. -/
theorem pdf_page_lines_witness :
    (([some "Page1", some ""] : List (Option String)) = (["Page1", ""] : List String).map some →
        convert_file_to_text envPdfPages "a.pdf" = linesText ["Page1", ""]) ∧
      (none ∈ ([some "Page1", some ""] : List (Option String)) →
        convert_file_to_text envPdfPages "a.pdf" = errProcessing pdfNoneCause) :=
  pdf_page_lines envPdfPages "a.pdf" ⟨[some "Page1", some ""]⟩ ["Page1", ""] (by decide) rfl

/-- C7: for a pptx input exactly the shapes exposing a text attribute
contribute, each as its text plus a newline, with slide order and shape
order preserved; shapes without the attribute are skipped. -/
theorem pptx_shape_lines (env : Env) (p : String) (presentation : PptxPresentation)
    (hext : extOf p = ".pptx") (hpres : env.pptx = Except.ok presentation) :
    convert_file_to_text env p =
      linesText ((presentation.slides.map
        (fun slide => slide.shapes.filterMap Shape.textAttr)).flatten) := by
  rw [convert_pptx_eq env p hext, hpres]

/-- C7 witness on two slides with one textless shape skipped. -/
theorem pptx_shape_lines_witness :
    convert_file_to_text envSlides "deck.pptx" =
      linesText ((([⟨[⟨some "A"⟩, ⟨none⟩]⟩, ⟨[⟨some "B"⟩]⟩] : List Slide).map
        (fun slide => slide.shapes.filterMap Shape.textAttr)).flatten) :=
  pptx_shape_lines envSlides "deck.pptx" ⟨[⟨[⟨some "A"⟩, ⟨none⟩]⟩, ⟨[⟨some "B"⟩]⟩]⟩
    (by decide) rfl

/-- C1 counterexample: a docx whose only paragraph is the word Error is
extracted successfully, yet its output starts with Error, so the Error
prefix does not hold exactly when extraction failed. -/
theorem error_prefix_not_iff_failure :
    ¬ (strStartsWith (convert_file_to_text envErrorParagraph "note.docx") "Error" = true
        ↔ extractionFailed envErrorParagraph "note.docx" = true) := by
  decide

/-- C1 amended: whenever extraction fails, because the extension is
unsupported or the selected extraction step raised, the returned string
starts with Error; the converse direction of the claim is dropped. -/
theorem extraction_failure_implies_error_prefix (env : Env) (p : String)
    (h : extractionFailed env p = true) :
    strStartsWith (convert_file_to_text env p) "Error" = true := by
  by_cases h1 : extOf p = ".docx"
  · rw [convert_docx_eq env p h1]
    unfold extractionFailed at h
    rw [if_pos h1] at h
    cases hd : env.docx with
    | error e => exact errProcessing_startsWith e
    | ok d => rw [hd] at h; simp [isErr] at h
  · by_cases h2 : extOf p = ".xlsx"
    · rw [convert_xlsx_eq env p h2]
      unfold extractionFailed at h
      rw [if_neg h1, if_pos h2] at h
      cases hd : env.xlsx with
      | error e => exact errProcessing_startsWith e
      | ok wb => rw [hd] at h; simp [isErr] at h
    · by_cases h3 : extOf p = ".pptx"
      · rw [convert_pptx_eq env p h3]
        unfold extractionFailed at h
        rw [if_neg h1, if_neg h2, if_pos h3] at h
        cases hd : env.pptx with
        | error e => exact errProcessing_startsWith e
        | ok pres => rw [hd] at h; simp [isErr] at h
      · by_cases h4 : extOf p ∈ [".html", ".htm"]
        · rw [convert_html_eq env p h4]
          unfold extractionFailed at h
          rw [if_neg h1, if_neg h2, if_neg h3, if_pos h4] at h
          cases hd : env.readUtf8 with
          | error e => exact errProcessing_startsWith e
          | ok s => rw [hd] at h; simp [isErr] at h
        · by_cases h5 : extOf p = ".pdf"
          · rw [convert_pdf_eq env p h5]
            unfold extractionFailed at h
            rw [if_neg h1, if_neg h2, if_neg h3, if_neg h4, if_pos h5] at h
            cases hd : env.pdf with
            | error e => exact errProcessing_startsWith e
            | ok reader =>
                rw [hd] at h
                have hmem : none ∈ reader.pages := by
                  obtain ⟨pg, hpg, hn⟩ := List.any_eq_true.mp h
                  rw [Option.isNone_iff_eq_none] at hn
                  rw [hn] at hpg
                  exact hpg
                show strStartsWith
                    (match pdfLoop reader.pages "" with
                      | Except.error e => errProcessing e
                      | Except.ok t => t) "Error" = true
                rw [pdfLoop_none reader.pages hmem ""]
                exact errProcessing_startsWith _
          · have h4a : extOf p ≠ ".html" :=
              fun hh => h4 (by rw [hh]; exact List.mem_cons_self _ _)
            have h4b : extOf p ≠ ".htm" := fun hh => h4 (by rw [hh]; simp)
            have hc : supportedExts.contains (extOf p) = false := by
              simp [supportedExts, h1, h2, h3, h4a, h4b, h5]
            rw [convert_unsupported_eq env p hc]
            exact errUnsupported_startsWith _

/-- C1 amended witness at an unsupported extension. -/
theorem extraction_failure_implies_error_prefix_witness :
    strStartsWith (convert_file_to_text envDefault "a.xyz") "Error" = true :=
  extraction_failure_implies_error_prefix envDefault "a.xyz" (by decide)

/-- C2: for a supported extension, when the selected extraction step raises
with some cause, the function returns the processing-error string built
around that cause, as a value rather than a propagating exception. -/
theorem supported_step_raise_reports_cause (env : Env) (p : String) (msg : String)
    (hsupp : supportedExts.contains (extOf p) = true)
    (hraise : stepRaises env (extOf p) = some msg) :
    convert_file_to_text env p = errProcessing msg := by
  by_cases h1 : extOf p = ".docx"
  · rw [convert_docx_eq env p h1]
    unfold stepRaises at hraise
    rw [if_pos h1] at hraise
    cases hd : env.docx with
    | error e =>
        rw [hd] at hraise
        simp only [errOf, Option.some.injEq] at hraise
        show errProcessing e = errProcessing msg
        rw [hraise]
    | ok d => rw [hd] at hraise; simp [errOf] at hraise
  · by_cases h2 : extOf p = ".xlsx"
    · rw [convert_xlsx_eq env p h2]
      unfold stepRaises at hraise
      rw [if_neg h1, if_pos h2] at hraise
      cases hd : env.xlsx with
      | error e =>
          rw [hd] at hraise
          simp only [errOf, Option.some.injEq] at hraise
          show errProcessing e = errProcessing msg
          rw [hraise]
      | ok wb => rw [hd] at hraise; simp [errOf] at hraise
    · by_cases h3 : extOf p = ".pptx"
      · rw [convert_pptx_eq env p h3]
        unfold stepRaises at hraise
        rw [if_neg h1, if_neg h2, if_pos h3] at hraise
        cases hd : env.pptx with
        | error e =>
            rw [hd] at hraise
            simp only [errOf, Option.some.injEq] at hraise
            show errProcessing e = errProcessing msg
            rw [hraise]
        | ok pres => rw [hd] at hraise; simp [errOf] at hraise
      · by_cases h4 : extOf p ∈ [".html", ".htm"]
        · rw [convert_html_eq env p h4]
          unfold stepRaises at hraise
          rw [if_neg h1, if_neg h2, if_neg h3, if_pos h4] at hraise
          cases hd : env.readUtf8 with
          | error e =>
              rw [hd] at hraise
              simp only [errOf, Option.some.injEq] at hraise
              show errProcessing e = errProcessing msg
              rw [hraise]
          | ok s => rw [hd] at hraise; simp [errOf] at hraise
        · by_cases h5 : extOf p = ".pdf"
          · rw [convert_pdf_eq env p h5]
            unfold stepRaises at hraise
            rw [if_neg h1, if_neg h2, if_neg h3, if_neg h4, if_pos h5] at hraise
            cases hd : env.pdf with
            | error e =>
                rw [hd] at hraise
                simp only [Option.some.injEq] at hraise
                show errProcessing e = errProcessing msg
                rw [hraise]
            | ok reader =>
                rw [hd] at hraise
                have hraise2 : (match pdfLoop reader.pages "" with
                    | Except.error e => some e
                    | Except.ok _ => none) = some msg := hraise
                show (match pdfLoop reader.pages "" with
                      | Except.error e => errProcessing e
                      | Except.ok t => t) = errProcessing msg
                cases hl : pdfLoop reader.pages "" with
                | error e =>
                    rw [hl] at hraise2
                    simp only [Option.some.injEq] at hraise2
                    show errProcessing e = errProcessing msg
                    rw [hraise2]
                | ok t => rw [hl] at hraise2; simp at hraise2
          · have h4a : extOf p ≠ ".html" :=
              fun hh => h4 (by rw [hh]; exact List.mem_cons_self _ _)
            have h4b : extOf p ≠ ".htm" := fun hh => h4 (by rw [hh]; simp)
            have hc : supportedExts.contains (extOf p) = false := by
              simp [supportedExts, h1, h2, h3, h4a, h4b, h5]
            rw [hc] at hsupp
            cases hsupp

/-- C2 witness on a corrupted docx raising with the cause bad zip. -/
theorem supported_step_raise_reports_cause_witness :
    convert_file_to_text envDocxError "a.docx" = errProcessing "bad zip" :=
  supported_step_raise_reports_cause envDocxError "a.docx" "bad zip" (by decide) (by decide)
